import Mathlib

/-
Shallow embedding of the audio-ingest-and-transcription core of the
audio-to-text-app repository:
  - SpeechRecognitionService.streamToBuffer / startRecognition
    (src/services/speechRecognitionService.ts)
  - AudioController.uploadAudio (controllers/audioController.ts)

Node.js streams are modelled as the finite list of events they emit, in
emission order; the promise returned by streamToBuffer is modelled as
Option (Except error buffer), where none means the promise never settles
(the stream emits neither an end nor an error event).  The external
Google SpeechClient.recognize capability is modelled as a function from
the request submitted to it to an Except outcome; the trace of requests
actually submitted to the provider is recorded so that claims about the
number and content of provider invocations can be stated.
-/

namespace AudioToText

/-- A byte chunk, as pushed by a data event of the upload stream. -/
abbrev Chunk := List Nat

/-- Events emitted by a Node.js readable stream, in emission order.
The constructor eos models the normal end event; the constructor error
models a read error event carrying its message. -/
inductive StreamEvent where
  | data (chunk : Chunk)
  | eos
  | error (msg : String)
  deriving DecidableEq

/-- Accumulating loop of streamToBuffer: each data event pushes its chunk
onto the chunks array; the first end event resolves the promise with the
concatenation of the accumulated chunks; the first error event rejects it.
A stream that emits no terminal event leaves the promise pending (none). -/
def streamToBufferAux (chunks : List Chunk) : List StreamEvent → Option (Except String Chunk)
  | [] => none
  | StreamEvent.data c :: rest => streamToBufferAux (chunks ++ [c]) rest
  | StreamEvent.eos :: _ => some (Except.ok chunks.flatten)
  | StreamEvent.error e :: _ => some (Except.error e)

/-- SpeechRecognitionService.streamToBuffer: collects the chunks pushed by
data events and resolves with Buffer.concat of them on end, or rejects
with the stream error. -/
def streamToBuffer (events : List StreamEvent) : Option (Except String Chunk) :=
  streamToBufferAux [] events

/-- One alternative transcript of a recognition result segment. -/
structure SpeechAlternative where
  transcript : String
  deriving DecidableEq

/-- One segment (result) of the provider response, holding its ordered
alternatives (highest confidence first). -/
structure SpeechResult where
  alternatives : List SpeechAlternative
  deriving DecidableEq

/-- The provider response; results is an Option because the field may be
absent from the wire response, in which case member access on it throws. -/
structure RecognizeResponse where
  results : Option (List SpeechResult)
  deriving DecidableEq

/-- The decoding configuration submitted with a recognition request. -/
structure RecognitionConfig where
  encoding : String
  sampleRateHertz : Nat
  languageCode : String
  deriving DecidableEq

/-- The configuration literal built inside startRecognition. -/
def fixedConfig : RecognitionConfig :=
  { encoding := "LINEAR16", sampleRateHertz := 16000, languageCode := "en-US" }

/-- A request submitted to the provider: audio content plus configuration. -/
structure RecognizeRequest where
  content : Chunk
  config : RecognitionConfig
  deriving DecidableEq

/-- The external provider capability (SpeechClient.recognize), modelled as
the outcome it produces for a submitted request. -/
abbrev Provider := RecognizeRequest → Except String RecognizeResponse

/-- The mapping results.map over segments taking alternatives[0].transcript.
JavaScript indexing of an empty alternatives array yields undefined, and
reading transcript on it throws, modelled as none. -/
def topTranscripts : List SpeechResult → Option (List String)
  | [] => some []
  | r :: rest =>
    match r.alternatives with
    | [] => none
    | a :: _ => (topTranscripts rest).map (fun ts => a.transcript :: ts)

/-- Processing of the value returned by the single provider call inside
startRecognition: a rejected call propagates its error; an absent results
field makes the member access throw; a segment with no alternatives makes
the index-0 access throw; otherwise the top transcripts are joined with a
newline separator. -/
def joinOutcome : Except String RecognizeResponse → Except String String
  | Except.error e => Except.error e
  | Except.ok response =>
    match response.results with
    | none => Except.error "TypeError: results is undefined"
    | some results =>
      match topTranscripts results with
      | none => Except.error "TypeError: alternatives index 0 is undefined"
      | some tops => Except.ok (String.intercalate "\n" tops)

/-- The recognition step of startRecognition, reached once the buffer is
available: builds the request with the fixed config, submits it to the
provider exactly once, and processes the outcome.  The first component is
the list of requests submitted to the provider, in submission order. -/
def recognizeAndJoin (buffer : Chunk) (client : Provider) : List RecognizeRequest × Except String String :=
  let request : RecognizeRequest := { content := buffer, config := fixedConfig }
  ([request], joinOutcome (client request))

/-- Observable trace of one startRecognition call: the provider requests
made and the settled outcome (none when the upload stream never ends). -/
structure RecognitionTrace where
  requests : List RecognizeRequest
  result : Option (Except String String)

/-- SpeechRecognitionService.startRecognition: awaits streamToBuffer on
the file stream (a rejection propagates before any provider call), then
submits the buffer with the fixed config and joins the response. -/
def startRecognition (file : List StreamEvent) (client : Provider) : RecognitionTrace :=
  match streamToBuffer file with
  | none => { requests := [], result := none }
  | some (Except.error e) => { requests := [], result := some (Except.error e) }
  | some (Except.ok buffer) =>
    let p := recognizeAndJoin buffer client
    { requests := p.1, result := some p.2 }

/-- An HTTP response body: plain text via send, or the JSON object with
the single transcription field via json. -/
inductive HttpBody where
  | text (s : String)
  | json (transcription : String)
  deriving DecidableEq

/-- An HTTP response: status code and body. -/
structure HttpResponse where
  status : Nat
  body : HttpBody
  deriving DecidableEq

/-- Observable trace of one AudioController.uploadAudio call: the response
sent (none when the pipeline never settles), how many provider calls were
made, and whether the upload stream was read at all. -/
structure ControllerTrace where
  response : Option HttpResponse
  recognizeCalls : Nat
  streamRead : Bool

/-- AudioController.uploadAudio: a request without a file is answered 400
before any service call; otherwise startRecognition runs and its settled
outcome is mapped to 200 with JSON on success, or to the generic 500 text
on any thrown error. -/
def uploadAudio (file : Option (List StreamEvent)) (client : Provider) : ControllerTrace :=
  match file with
  | none =>
    { response := some { status := 400, body := HttpBody.text "No audio file uploaded." },
      recognizeCalls := 0, streamRead := false }
  | some events =>
    let tr := startRecognition events client
    match tr.result with
    | none => { response := none, recognizeCalls := tr.requests.length, streamRead := true }
    | some (Except.ok t) =>
      { response := some { status := 200, body := HttpBody.json t },
        recognizeCalls := tr.requests.length, streamRead := true }
    | some (Except.error _) =>
      { response := some { status := 500, body := HttpBody.text "Error processing audio file." },
        recognizeCalls := tr.requests.length, streamRead := true }

/-- A provider capability that supports no decoding configuration: every
recognize call it receives fails with an unsupported-configuration error. -/
def unsupportedConfigClient : Provider :=
  fun _ => Except.error "INVALID_ARGUMENT: configuration not supported"

/-- A provider stub that succeeds with an empty segment list. -/
def emptyResultsClient : Provider :=
  fun _ => Except.ok { results := some [] }

/-! ## Helper lemmas -/

/-- Data events only accumulate: processing a run of data events appends
their chunks to the accumulator. -/
lemma streamToBufferAux_data_prefix (chunks : List Chunk) (acc : List Chunk)
    (rest : List StreamEvent) :
    streamToBufferAux acc (chunks.map StreamEvent.data ++ rest)
      = streamToBufferAux (acc ++ chunks) rest := by
  induction chunks generalizing acc with
  | nil => simp
  | cons c cs ih =>
    simp only [List.map_cons, List.cons_append, streamToBufferAux, List.append_eq]
    rw [ih]
    simp

/-- A stream of data events followed by a normal end resolves with the
concatenation of the chunks, whatever follows the end event. -/
lemma streamToBuffer_eos (chunks : List Chunk) (rest : List StreamEvent) :
    streamToBuffer (chunks.map StreamEvent.data ++ StreamEvent.eos :: rest)
      = some (Except.ok chunks.flatten) := by
  simp [streamToBuffer, streamToBufferAux_data_prefix, streamToBufferAux]

/-- A stream of data events followed by an error event rejects with that
error, whatever follows. -/
lemma streamToBuffer_error (chunks : List Chunk) (e : String) (rest : List StreamEvent) :
    streamToBuffer (chunks.map StreamEvent.data ++ StreamEvent.error e :: rest)
      = some (Except.error e) := by
  simp [streamToBuffer, streamToBufferAux_data_prefix, streamToBufferAux]

/-- When every segment has at least one alternative, the mapped list is
exactly each segment head alternative transcript, in segment order. -/
lemma topTranscripts_of_nonempty (results : List SpeechResult)
    (h : ∀ r ∈ results, r.alternatives ≠ []) :
    topTranscripts results
      = some (results.map (fun r => (r.alternatives.headD { transcript := "" }).transcript)) := by
  induction results with
  | nil => rfl
  | cons r rest ih =>
    have hr : r.alternatives ≠ [] := h r (List.mem_cons_self r rest)
    have hrest : ∀ s ∈ rest, s.alternatives ≠ [] := fun s hs => h s (List.mem_cons_of_mem r hs)
    cases halts : r.alternatives with
    | nil => exact absurd halts hr
    | cons a as => simp [topTranscripts, halts, ih hrest]

/-- A segment with an empty alternatives list makes the whole mapping
throw. -/
lemma topTranscripts_none_of_empty_mem (results : List SpeechResult)
    (h : ∃ r ∈ results, r.alternatives = []) :
    topTranscripts results = none := by
  induction results with
  | nil => simp at h
  | cons r rest ih =>
    cases halts : r.alternatives with
    | nil => simp [topTranscripts, halts]
    | cons a as =>
      rcases h with ⟨s, hs, hsa⟩
      rcases List.mem_cons.mp hs with heq | hmem
      · subst heq; rw [halts] at hsa; simp at hsa
      · simp [topTranscripts, halts, ih ⟨s, hmem, hsa⟩]

/-- startRecognition on a normally ending stream: the buffer is the chunk
concatenation, exactly one request is submitted with the fixed config, and
the settled outcome is the join of the provider response. -/
lemma startRecognition_eos (chunks : List Chunk) (rest : List StreamEvent) (client : Provider) :
    startRecognition (chunks.map StreamEvent.data ++ StreamEvent.eos :: rest) client
      = { requests := [{ content := chunks.flatten, config := fixedConfig }],
          result := some (joinOutcome (client { content := chunks.flatten, config := fixedConfig })) } := by
  simp [startRecognition, streamToBuffer_eos, recognizeAndJoin]

/-! ## Claim theorems -/

/-- C1: for every provider response consisting of an ordered list of
segments, each with a non-empty ordered list of alternatives, the
transcript returned by startRecognition equals the concatenation of each
segment alternative at index 0, in the provider segment order, separated
by a single newline character. -/
theorem startRecognition_joins_top_alternatives
    (chunks : List Chunk) (results : List SpeechResult)
    (h : ∀ r ∈ results, r.alternatives ≠ []) :
    (startRecognition (chunks.map StreamEvent.data ++ [StreamEvent.eos])
        (fun _ => Except.ok { results := some results })).result
      = some (Except.ok (String.intercalate "\n"
          (results.map (fun r => (r.alternatives.headD { transcript := "" }).transcript)))) := by
  rw [startRecognition_eos chunks [] (fun _ => Except.ok { results := some results })]
  simp [joinOutcome, topTranscripts_of_nonempty results h]

theorem startRecognition_joins_top_alternatives_witness :
    (startRecognition [StreamEvent.eos]
        (fun _ => Except.ok { results := some [{ alternatives := [{ transcript := "b" }] }, { alternatives := [{ transcript := "a" }] }] })).result
      = some (Except.ok "b\na") := by
  have h := startRecognition_joins_top_alternatives []
      [{ alternatives := [{ transcript := "b" }] },
       { alternatives := [{ transcript := "a" }] }]
      (by decide)
  exact h

/-- C2: for every sequence of chunks emitted by the source stream followed
by a normal end event, streamToBuffer resolves with the concatenation of
those chunks in arrival order (no byte duplicated or dropped); with zero
chunks it resolves with the empty buffer rather than failing. -/
theorem streamToBuffer_concatenates_chunks (chunks : List Chunk) (rest : List StreamEvent) :
    streamToBuffer (chunks.map StreamEvent.data ++ StreamEvent.eos :: rest)
      = some (Except.ok chunks.flatten) :=
  streamToBuffer_eos chunks rest

/-- C3: for every request carrying no audio file, uploadAudio responds
with status 400 and neither reads a stream nor calls the provider. -/
theorem uploadAudio_missing_file (client : Provider) :
    uploadAudio none client
      = { response := some { status := 400, body := HttpBody.text "No audio file uploaded." },
          recognizeCalls := 0, streamRead := false } := rfl

/-- C4: for every source stream that reports a read error at any point,
including after chunks were already received, streamToBuffer rejects with
that error, no partial data is forwarded to the provider (zero recognize
calls), and the request ends in the generic 500 failure with no
transcript. -/
theorem streamError_fails_without_partial_data
    (chunks : List Chunk) (e : String) (rest : List StreamEvent) (client : Provider) :
    streamToBuffer (chunks.map StreamEvent.data ++ StreamEvent.error e :: rest)
      = some (Except.error e) ∧
    uploadAudio (some (chunks.map StreamEvent.data ++ StreamEvent.error e :: rest)) client
      = { response := some { status := 500, body := HttpBody.text "Error processing audio file." },
          recognizeCalls := 0, streamRead := true } := by
  refine ⟨streamToBuffer_error chunks e rest, ?_⟩
  simp [uploadAudio, startRecognition, streamToBuffer_error]

/-- C5 counterexample: against the claim, no configuration check precedes
the provider call: a provider capability that supports no configuration is
still invoked (one request is submitted), and the failure is the provider
call error, not a pre-call InvalidConfigError. -/
theorem provider_invoked_despite_unsupported_config :
    (startRecognition [StreamEvent.eos] unsupportedConfigClient).requests.length = 1 ∧
    (startRecognition [StreamEvent.eos] unsupportedConfigClient).result
      = some (Except.error "INVALID_ARGUMENT: configuration not supported") :=
  ⟨rfl, rfl⟩

/-- C5 amended: startRecognition performs no configuration validation of
its own: once the buffer is available it always submits the fixed
configuration to the provider, and an unsupported configuration surfaces
only as the provider call own error, which is propagated unchanged. -/
theorem no_precall_config_validation (buffer : Chunk) (e : String) :
    recognizeAndJoin buffer (fun _ => Except.error e)
      = ([{ content := buffer, config := fixedConfig }], Except.error e) := rfl

/-- C6: for every provider response whose segment list is empty, in
particular for a zero-length audio buffer, the pipeline produces the
empty-string transcript as a success (HTTP 200), not a failure. -/
theorem empty_results_yield_empty_transcript (chunks : List Chunk) :
    (startRecognition (chunks.map StreamEvent.data ++ [StreamEvent.eos]) emptyResultsClient).result
      = some (Except.ok "") ∧
    uploadAudio (some (chunks.map StreamEvent.data ++ [StreamEvent.eos])) emptyResultsClient
      = { response := some { status := 200, body := HttpBody.json "" },
          recognizeCalls := 1, streamRead := true } := by
  have hs := startRecognition_eos chunks [] emptyResultsClient
  refine ⟨?_, ?_⟩
  · rw [hs]; rfl
  · simp [uploadAudio, hs, emptyResultsClient, joinOutcome, topTranscripts]
    rfl

/-- C7: the recognition step invokes the provider capability exactly once
per call, whatever the provider outcome (zero further invocations on
success and zero retries on failure), and a startRecognition call whose
buffering completes submits exactly one provider request. -/
theorem recognize_called_exactly_once
    (buffer : Chunk) (chunks : List Chunk) (rest : List StreamEvent) (client : Provider) :
    (recognizeAndJoin buffer client).1.length = 1 ∧
    (startRecognition (chunks.map StreamEvent.data ++ StreamEvent.eos :: rest) client).requests.length = 1 := by
  refine ⟨rfl, ?_⟩
  rw [startRecognition_eos]
  rfl

/-- Every request ever submitted to the provider carries the fixed
configuration. -/
lemma mem_requests_config (events : List StreamEvent) (client : Provider)
    (r : RecognizeRequest) (h : r ∈ (startRecognition events client).requests) :
    r.config = fixedConfig := by
  unfold startRecognition at h
  cases hsb : streamToBuffer events with
  | none => rw [hsb] at h; simp at h
  | some res =>
    cases res with
    | error e => rw [hsb] at h; simp at h
    | ok buffer =>
      rw [hsb] at h
      simp [recognizeAndJoin] at h
      rw [h]

/-- C8: for any two requests, regardless of their audio file contents, the
decoding configuration submitted to the provider is the same constant
(encoding LINEAR16, sample rate 16000 Hz, language en-US); no request
input can influence it. -/
theorem config_constant_across_requests
    (e1 e2 : List StreamEvent) (c1 c2 : Provider) (r1 r2 : RecognizeRequest)
    (h1 : r1 ∈ (startRecognition e1 c1).requests)
    (h2 : r2 ∈ (startRecognition e2 c2).requests) :
    r1.config = fixedConfig ∧ r2.config = fixedConfig ∧ r1.config = r2.config := by
  have k1 := mem_requests_config e1 c1 r1 h1
  have k2 := mem_requests_config e2 c2 r2 h2
  exact ⟨k1, k2, k1.trans k2.symm⟩

theorem config_constant_across_requests_witness :
    ({ content := [], config := fixedConfig } : RecognizeRequest).config = fixedConfig ∧
    ({ content := [0], config := fixedConfig } : RecognizeRequest).config = fixedConfig ∧
    ({ content := [], config := fixedConfig } : RecognizeRequest).config
      = ({ content := [0], config := fixedConfig } : RecognizeRequest).config :=
  config_constant_across_requests [StreamEvent.eos] [StreamEvent.data [0], StreamEvent.eos]
    emptyResultsClient emptyResultsClient
    { content := [], config := fixedConfig } { content := [0], config := fixedConfig }
    (by decide) (by decide)

/-- C9: uploadAudio maps outcomes to HTTP responses totally and uniquely:
a missing file yields 400, a settled success yields 200 with the JSON
transcription body, any other settled failure yields 500 with the generic
plain-text message, and status 400 occurs only for the missing-file
case. -/
theorem uploadAudio_response_mapping (file : Option (List StreamEvent)) (client : Provider) :
    (file = none →
      (uploadAudio file client).response
        = some { status := 400, body := HttpBody.text "No audio file uploaded." }) ∧
    (∀ events t, file = some events →
      (startRecognition events client).result = some (Except.ok t) →
      (uploadAudio file client).response
        = some { status := 200, body := HttpBody.json t }) ∧
    (∀ events e, file = some events →
      (startRecognition events client).result = some (Except.error e) →
      (uploadAudio file client).response
        = some { status := 500, body := HttpBody.text "Error processing audio file." }) ∧
    (∀ r, (uploadAudio file client).response = some r → r.status = 400 → file = none) := by
  refine ⟨?_, ?_, ?_, ?_⟩
  · rintro rfl; rfl
  · rintro events t rfl hres
    simp [uploadAudio, hres]
  · rintro events e rfl hres
    simp [uploadAudio, hres]
  · intro r hr h400
    cases hf : file with
    | none => rfl
    | some events =>
      rw [hf] at hr
      exfalso
      cases hres : (startRecognition events client).result with
      | none => simp [uploadAudio, hres] at hr
      | some out =>
        cases out with
        | ok t =>
          simp [uploadAudio, hres] at hr
          rw [← hr] at h400
          simp at h400
        | error e =>
          simp [uploadAudio, hres] at hr
          rw [← hr] at h400
          simp at h400

theorem uploadAudio_response_mapping_witness :
    (uploadAudio none emptyResultsClient).response
      = some { status := 400, body := HttpBody.text "No audio file uploaded." } :=
  (uploadAudio_response_mapping none emptyResultsClient).1 rfl

/-- C10: a provider response containing a segment with an empty
alternatives list, or with the results field absent, fails the whole
request with the generic 500 error: the faulty segment is not skipped and
no partial transcript is returned. -/
theorem empty_alternatives_fail_whole_request
    (chunks : List Chunk) (results : List SpeechResult)
    (h : ∃ r ∈ results, r.alternatives = []) :
    uploadAudio (some (chunks.map StreamEvent.data ++ [StreamEvent.eos]))
        (fun _ => Except.ok { results := some results })
      = { response := some { status := 500, body := HttpBody.text "Error processing audio file." },
          recognizeCalls := 1, streamRead := true } ∧
    uploadAudio (some (chunks.map StreamEvent.data ++ [StreamEvent.eos]))
        (fun _ => Except.ok { results := none })
      = { response := some { status := 500, body := HttpBody.text "Error processing audio file." },
          recognizeCalls := 1, streamRead := true } := by
  have h1 := startRecognition_eos chunks [] (fun _ => Except.ok { results := some results })
  have h2 := startRecognition_eos chunks [] (fun _ => Except.ok { results := none })
  refine ⟨?_, ?_⟩
  · simp [uploadAudio, h1, joinOutcome, topTranscripts_none_of_empty_mem results h]
  · simp [uploadAudio, h2, joinOutcome]

theorem empty_alternatives_fail_whole_request_witness :
    uploadAudio (some [StreamEvent.eos])
        (fun _ => Except.ok { results := some [{ alternatives := [] }] })
      = { response := some { status := 500, body := HttpBody.text "Error processing audio file." },
          recognizeCalls := 1, streamRead := true } := by
  have h := empty_alternatives_fail_whole_request [] [{ alternatives := [] }]
      ⟨{ alternatives := [] }, by simp, rfl⟩
  exact h.1

end AudioToText
